import Mathlib

/-!
Shallow embedding of the RAG route handlers of `src/app/api/rag/route.ts`:
the indexing pipeline (`GET`), the retrieval-and-grounding pipeline
(`POST`), the helper `getEmbedding`, and the Pinecone index interface they
call.  JavaScript numbers are modelled by `JSNum` (NaN, an infinity, or a
finite value abstracted as a rational); the external collaborators
(database, HuggingFace inference call, Pinecone index) are passed in as
explicit oracles, so the handlers become pure functions whose outputs also
record which external calls were made.
-/

/-- A JavaScript number: NaN, an infinity, or a finite value. -/
inductive JSNum where
  | nan
  | posInf
  | negInf
  | val (q : ℚ)
deriving DecidableEq, Repr

/-- The JavaScript global `isNaN` on a number: true exactly for NaN.
The infinities are numeric and are NOT NaN. -/
def JSNum.isNaN : JSNum → Bool
  | .nan => true
  | _ => false

/-- Shape of a HuggingFace `featureExtraction` response per its TypeScript
type: a bare number, a flat vector, or a nested (token-level) matrix. -/
inductive HFResponse where
  | scalar (x : JSNum)
  | flat (xs : List JSNum)
  | nested (xss : List (List JSNum))
deriving DecidableEq, Repr

/-- Lines 49-57 of `route.ts`: normalize the model response to a flat
vector.  `Array.isArray(response)` rejects a bare number;
`Array.isArray(response[0])` selects the nested case (for an empty array,
`response[0]` is `undefined`, not an array, so the array is returned
as-is); a nested response is flattened one level by `response.flat()`. -/
def getEmbedding : HFResponse → Except String (List JSNum)
  | .scalar _ => .error "Invalid embedding response format"
  | .flat xs => .ok xs
  | .nested [] => .ok []
  | .nested (xs :: rest) => .ok ((xs :: rest).flatten)

/-- The whole of `getEmbedding` (lines 43-58) including the inference call
itself: the call may fail, and a successful response is normalized. -/
def embedText (hfCall : String → Except String HFResponse) (text : String) :
    Except String (List JSNum) :=
  match hfCall text with
  | .error e => .error e
  | .ok r => getEmbedding r

/-- A project row of the database (`db.select().from(project)`), at the
interface boundary used by the route: `projectName`, `projectOwner` and
`aiDescription` are nullable text fields; the `languages` mapping
(language → usage count) is modelled as an association list, the schema
file not being among the sources. -/
structure Project where
  projectName : Option String
  projectOwner : Option String
  aiDescription : Option String
  languages : List (String × Nat)
deriving DecidableEq, Repr

/-- Characters removed by JavaScript `String.prototype.trim` (ECMA-262
TrimString: WhiteSpace and LineTerminator, i.e. tab, line feed, vertical
tab, form feed, carriage return, the Space_Separator code points —
space, NBSP, U+1680, U+2000 through U+200A, U+202F, U+205F, U+3000 —
the line and paragraph separators U+2028 and U+2029, and the BOM
U+FEFF). -/
def jsWhitespaceChar (c : Char) : Bool :=
  c = ' ' || c = '\t' || c = '\n' || c = '\r' || c = '\u000B' ||
    c = '\u000C' || c = '\u00A0' || c = '\u1680' || c = '\u2000' ||
    c = '\u2001' || c = '\u2002' || c = '\u2003' || c = '\u2004' ||
    c = '\u2005' || c = '\u2006' || c = '\u2007' || c = '\u2008' ||
    c = '\u2009' || c = '\u200A' || c = '\u2028' || c = '\u2029' ||
    c = '\u202F' || c = '\u205F' || c = '\u3000' || c = '\uFEFF'

/-- JavaScript `String.prototype.trim`: drop whitespace from both ends. -/
def jsTrim (s : String) : String :=
  String.mk (((s.toList.dropWhile jsWhitespaceChar).reverse.dropWhile
    jsWhitespaceChar).reverse)

/-- JavaScript `a || d` for a nullable string `a`: `null`, `undefined` and
`""` are all falsy, so any of them yields the default. -/
def jsOrDefault : Option String → String → String
  | none, d => d
  | some s, d => if s = "" then d else s

/-- A nullable string rendered inside a template literal: `null` renders as
the text `"null"`. -/
def templateStr : Option String → String
  | none => "null"
  | some s => s

/-- Lines 77-79: the filter predicate
`p.aiDescription && p.aiDescription.trim() !== ""`. -/
def hasDescription (p : Project) : Bool :=
  match p.aiDescription with
  | none => false
  | some d => (d != "") && (jsTrim d != "")

/-- The metadata stored in Pinecone (interface `PineconeMetadata`). -/
structure PineconeMetadata where
  projectName : String
  description : String
  languages : String
  owner : String
deriving DecidableEq, Repr

/-- A record upserted to Pinecone (interface `PineconeVector`). -/
structure PineconeVector where
  id : String
  values : List JSNum
  metadata : PineconeMetadata
deriving DecidableEq, Repr

/-- `JSON.stringify(p.languages)` applied to the language mapping. -/
def jsonStringifyLanguages (ls : List (String × Nat)) : String :=
  "\x7b" ++ String.intercalate ","
    (ls.map fun lp => "\"" ++ lp.1 ++ "\":" ++ toString lp.2) ++ "\x7d"

/-- Lines 83-101: the body of the `projectsWithDescription.map` callback at
enumeration index `id`: embed the description, validate the result with
`!Array.isArray(embedding) || embedding.some(isNaN)` (the array check is
always false here because `getEmbedding` only ever resolves to an array),
and build the Pinecone record.  `p.aiDescription!` is the non-null
assertion on a record that passed the description filter. -/
def processProject (hfCall : String → Except String HFResponse) (id : Nat)
    (p : Project) : Except String PineconeVector :=
  match embedText hfCall (p.aiDescription.getD "") with
  | .error e => .error e
  | .ok embedding =>
    if embedding.any JSNum.isNaN then
      .error ("Invalid embedding for project " ++ templateStr p.projectName)
    else
      .ok { id := toString id
            values := embedding
            metadata :=
              { projectName := jsOrDefault p.projectName "Unnamed Project"
                description := p.aiDescription.getD ""
                languages := jsonStringifyLanguages p.languages
                owner := jsOrDefault p.projectOwner "Unknown Owner" } }

/-- `Promise.all` over the per-record results, in enumeration order: the
joined promise rejects iff some member rejects, and nothing is committed
when it does (fail-fast join before the upsert). -/
def promiseAll {ε β : Type} : List (Except ε β) → Except ε (List β)
  | [] => .ok []
  | .error e :: _ => .error e
  | .ok b :: rest =>
    match promiseAll rest with
    | .error e => .error e
    | .ok bs => .ok (b :: bs)

/-- A JSON response from the indexing route. -/
inductive ApiResponse where
  | success (message : String) (projectsProcessed : Nat)
  | jsonError (error : String) (status : Nat)
deriving DecidableEq, Repr

/-- Lines 113-121: the `catch` block of `GET` wraps every thrown message
into one 500 payload. -/
def getCatch (e : String) : ApiResponse :=
  .jsonError ("Failed to process data: " ++ e) 500

/-- Lines 71-122: the `GET` indexing handler.  `apiKeySet` is whether
`PINECONE_API_KEY` is present (`getPineconeIndex` throws otherwise),
`dbResult` the outcome of the database read, `hfCall` the inference call,
`upsert` the Pinecone upsert.  The result pairs the HTTP response with the
argument of the `index.upsert` call when that call was made (`none` when
the handler never reached it or the batch was empty). -/
def GETrun (apiKeySet : Bool) (dbResult : Except String (List Project))
    (hfCall : String → Except String HFResponse)
    (upsert : List PineconeVector → Except String Unit) :
    ApiResponse × Option (List PineconeVector) :=
  if apiKeySet then
    match dbResult with
    | .error e => (getCatch e, none)
    | .ok allProjects =>
      match promiseAll ((allProjects.filter hasDescription).enum.map
          fun ip => processProject hfCall ip.1 ip.2) with
      | .error e => (getCatch e, none)
      | .ok vectors =>
        if vectors.length > 0 then
          match upsert vectors with
          | .error e => (getCatch e, some vectors)
          | .ok _ =>
            (.success "Data successfully sent to Pinecone." vectors.length,
              some vectors)
        else
          (.success "Data successfully sent to Pinecone." vectors.length,
            none)
  else (getCatch "PINECONE_API_KEY environment variable is not set.", none)

/-- The decimal digit character for `n % 10`. -/
def decDigit (n : Nat) : Char := Char.ofNat (48 + n % 10)

/-- The four fractional digits of `m % 10000`, zero-padded to width 4. -/
def frac4 (m : Nat) : String :=
  String.mk [decDigit (m / 1000), decDigit (m / 100), decDigit (m / 10),
    decDigit m]

/-- JavaScript `Number.prototype.toFixed(4)` on a finite value: the sign is
taken first, then the nearest multiple of 1/10000 of the absolute value
(ties toward the larger candidate), rendered with exactly four fractional
digits. -/
def toFixed4 (q : ℚ) : String :=
  let sign := if q < 0 then "-" else ""
  let m := (Rat.floor (|q| * 10000 + 1/2)).toNat
  sign ++ toString (m / 10000) ++ "." ++ frac4 (m % 10000)

/-- `match.score?.toFixed(4)` rendered in the template literal: an absent
score renders as `undefined`; NaN and the infinities render as their own
JavaScript strings. -/
def renderScore : Option JSNum → String
  | none => "undefined"
  | some .nan => "NaN"
  | some .posInf => "Infinity"
  | some .negInf => "-Infinity"
  | some (.val q) => toFixed4 q

/-- A match returned by `index.query`: `score` and `metadata` are optional
fields of the Pinecone scored-record type. -/
structure QueryMatch where
  score : Option JSNum
  metadata : Option PineconeMetadata
deriving DecidableEq, Repr

/-- The metadata fields read after the `match.metadata!` non-null assertion
when no metadata is actually present: every property is `undefined` and
renders as such in the template literal. -/
def undefinedMetadata : PineconeMetadata :=
  { projectName := "undefined", description := "undefined",
    languages := "undefined", owner := "undefined" }

/-- Lines 157-164: the per-match paragraph of the context block. -/
def renderMatch (m : QueryMatch) : String :=
  let metadata := m.metadata.getD undefinedMetadata
  "Project: " ++ metadata.projectName ++ "\nOwner: " ++ metadata.owner ++
    "\nDescription: " ++ metadata.description ++ "\nRelevance Score: " ++
    renderScore m.score ++ "\n"

/-- Lines 155-165: the context block, one paragraph per match joined by the
separator line; an absent or empty match list yields `""`. -/
def buildContext (queryMatches : List QueryMatch) : String :=
  String.intercalate "\n---\n" (queryMatches.map renderMatch)

/-- The text of the system prompt template before the interpolated context
(lines 168-172). -/
def sysPromptPre : String :=
  "You are an expert assistant for openwave, a platform connecting open-source projects with contributors.\nYour task is to answer user questions based ONLY on the context provided below.\n\nCONTEXT:\n---\n"

/-- The text of the system prompt template after the interpolated context
(lines 174-182). -/
def sysPromptPost : String :=
  "\n---\n\nIMPORTANT INSTRUCTIONS:\n1.  ONLY use the information from the CONTEXT section to answer the query.\n2.  If the context does not contain the answer, you MUST state: \"I don't have enough information to answer that.\"\n3.  Do NOT use any prior knowledge or information outside of the provided context.\n4.  Do NOT make up or infer details not explicitly stated.\n5.  When returning a project's details, format it clearly.\n"

/-- Lines 168-182: the system prompt with the context block interpolated
between the fixed template halves. -/
def systemPrompt (context : String) : String :=
  sysPromptPre ++ context ++ sysPromptPost

/-- The role of a `CoreMessage`. -/
inductive Role where
  | user
  | assistant
  | system
  | tool
deriving DecidableEq, Repr

/-- The content of a `CoreMessage`: a plain string, or structured parts
(anything for which `typeof content !== "string"`). -/
inductive MsgContent where
  | text (s : String)
  | parts
deriving DecidableEq, Repr

/-- A message of the incoming conversation. -/
structure CoreMessage where
  role : Role
  content : MsgContent
deriving DecidableEq, Repr

/-- Lines 132-134: `messages.filter((msg) => msg.role === "user").pop()`. -/
def lastUserMessage (messages : List CoreMessage) : Option CoreMessage :=
  (messages.filter fun msg => msg.role == Role.user).getLast?

/-- The argument object of `index.query` (lines 148-152). -/
structure QueryRequest where
  vector : List JSNum
  topK : Nat
  includeMetadata : Bool
deriving DecidableEq, Repr

/-- The response of the `POST` handler: a JSON error payload, or the
streamed generation, recording the system prompt and the message list
handed to `streamText`. -/
inductive PostResponse where
  | jsonError (error : String) (status : Nat)
  | stream (system : String) (messages : List CoreMessage)
deriving DecidableEq, Repr

/-- The outcome of a `POST` run: the response, the texts sent to the
embedding model, and the requests sent to `index.query`. -/
structure PostOutcome where
  response : PostResponse
  embedCalls : List String
  queryReqs : List QueryRequest
deriving DecidableEq, Repr

/-- Lines 128-201: the `POST` retrieval-and-grounding handler over a parsed
message list.  Validation precedes every external call; the embedding call
(line 144) precedes the Pinecone configuration check (line 147); the query
always asks for `topK: 3` with `includeMetadata: true`; `streamText`
receives the constructed system prompt together with the FULL original
message list.  The catch block (lines 192-200) wraps any thrown message
into one 500 payload. -/
def POSTrun (apiKeySet : Bool) (hfCall : String → Except String HFResponse)
    (index : QueryRequest → Except String (List QueryMatch))
    (messages : List CoreMessage) : PostOutcome :=
  match lastUserMessage messages with
  | none => ⟨.jsonError "Invalid user message in request." 400, [], []⟩
  | some latest =>
    match latest.content with
    | .parts => ⟨.jsonError "Invalid user message in request." 400, [], []⟩
    | .text content =>
      match embedText hfCall content with
      | .error e =>
        ⟨.jsonError ("Failed to process RAG request: " ++ e) 500,
          [content], []⟩
      | .ok queryEmbedding =>
        if apiKeySet then
          match index ⟨queryEmbedding, 3, true⟩ with
          | .error e =>
            ⟨.jsonError ("Failed to process RAG request: " ++ e) 500,
              [content], [⟨queryEmbedding, 3, true⟩]⟩
          | .ok queryMatches =>
            ⟨.stream (systemPrompt (buildContext queryMatches)) messages,
              [content], [⟨queryEmbedding, 3, true⟩]⟩
        else
          ⟨.jsonError ("Failed to process RAG request: PINECONE_API_KEY environment variable is not set.") 500, [content], []⟩

/-- A record persisted in the external vector index; at the index level the
stored metadata is optional. -/
structure StoredVector where
  id : String
  values : List JSNum
  metadata : Option PineconeMetadata
deriving DecidableEq, Repr

/-- Modelled from the spec: the external vector index top-K `query` (the
Pinecone client is an external collaborator, absent from the sources).
Per the spec it "returns at most `k` matches" and "matches lacking
metadata are never returned (metadata inclusion is mandatory in the
request)"; the store is taken in descending-similarity order for the
query vector, `score` being the similarity the index reports for each
stored record. -/
def indexQueryModel (store : List StoredVector) (score : StoredVector → ℚ)
    (req : QueryRequest) : List QueryMatch :=
  ((if req.includeMetadata then store.filter (fun r => r.metadata.isSome)
    else store).map
    fun r => (⟨some (JSNum.val (score r)), r.metadata⟩ : QueryMatch)).take
    req.topK

/-! Helper lemmas shared across the claim theorems. -/

/-- `jsTrim` erases a string exactly when every character is whitespace
(the empty string included, vacuously). -/
theorem jsTrim_eq_empty_iff (s : String) :
    jsTrim s = "" ↔ ∀ c ∈ s.toList, jsWhitespaceChar c = true := by
  have hmk : ("" : String) = String.mk [] := rfl
  have hinj : ∀ a b : List Char, String.mk a = String.mk b ↔ a = b :=
    fun a b => ⟨fun h => congrArg String.data h, fun h => congrArg String.mk h⟩
  unfold jsTrim
  rw [hmk, hinj, List.reverse_eq_nil_iff, List.dropWhile_eq_nil_iff]
  constructor
  · intro h c hc
    rcases List.mem_append.mp
        ((List.takeWhile_append_dropWhile jsWhitespaceChar s.toList) ▸ hc)
      with htk | hdr
    · exact List.mem_takeWhile_imp htk
    · exact h c (List.mem_reverse.mpr hdr)
  · intro h c hc
    exact h c ((List.dropWhile_sublist _).subset (List.mem_reverse.mp hc))

/-- If some member of the joined list is a rejection, the `Promise.all`
join rejects: nothing is returned for the batch. -/
theorem promiseAll_error_of_mem {ε β : Type} {l : List (Except ε β)}
    {e : ε} (h : Except.error e ∈ l) :
    ∃ e2, promiseAll l = Except.error e2 := by
  induction l with
  | nil => cases h
  | cons x rest ih =>
    cases x with
    | error e0 => exact ⟨e0, rfl⟩
    | ok b =>
      rcases List.mem_cons.mp h with h1 | h2
      · exact absurd h1 (by simp)
      · rcases ih h2 with ⟨e2, he2⟩
        exact ⟨e2, by simp [promiseAll, he2]⟩

/-- Every member of a list appears in its enumeration at some index. -/
theorem mem_enum_of_mem {α : Type} {p : α} {l : List α} (h : p ∈ l) :
    ∃ i, (i, p) ∈ l.enum := by
  have h2 : p ∈ l.enum.map Prod.snd := by
    rw [List.enum_map_snd]; exact h
  rcases List.mem_map.mp h2 with ⟨⟨i, q⟩, hmem, hq⟩
  exact ⟨i, by simpa using (show q = p from hq) ▸ hmem⟩

/-- A record whose embedding call fails, or whose embedding the handler
judges invalid (some component is NaN), fails its per-record step. -/
theorem processProject_error (hfCall : String → Except String HFResponse)
    (i : Nat) (p : Project)
    (h : (∃ e, embedText hfCall (p.aiDescription.getD "") = Except.error e) ∨
      (∃ v, embedText hfCall (p.aiDescription.getD "") = Except.ok v ∧
        v.any JSNum.isNaN = true)) :
    ∃ e, processProject hfCall i p = Except.error e := by
  unfold processProject
  rcases h with ⟨e, he⟩ | ⟨v, hv, hnan⟩
  · rw [he]; exact ⟨e, rfl⟩
  · refine ⟨"Invalid embedding for project " ++ templateStr p.projectName, ?_⟩
    rw [hv]; simp [hnan]

/-- If some eligible record fails its per-record step, the whole `GET` run
answers with one 500 error and the upsert call is never made. -/
theorem GETrun_error_of_bad_record
    (hfCall : String → Except String HFResponse)
    (upsert : List PineconeVector → Except String Unit)
    {l : List Project} {p : Project}
    (hp : p ∈ l.filter hasDescription)
    (h : (∃ e, embedText hfCall (p.aiDescription.getD "") = Except.error e) ∨
      (∃ v, embedText hfCall (p.aiDescription.getD "") = Except.ok v ∧
        v.any JSNum.isNaN = true)) :
    ∃ e, GETrun true (Except.ok l) hfCall upsert =
      (ApiResponse.jsonError ("Failed to process data: " ++ e) 500, none) := by
  rcases mem_enum_of_mem hp with ⟨i, hi⟩
  rcases processProject_error hfCall i p h with ⟨e0, he0⟩
  have hmem : Except.error e0 ∈
      ((l.filter hasDescription).enum.map
        fun ip => processProject hfCall ip.1 ip.2) :=
    List.mem_map.mpr ⟨(i, p), hi, he0⟩
  rcases promiseAll_error_of_mem hmem with ⟨e2, he2⟩
  exact ⟨e2, by simp [GETrun, he2, getCatch]⟩

/-! Concrete fixtures used by witnesses and counterexamples. -/

/-- The eligible source record of the end-to-end scenario. -/
def recA : Project :=
  { projectName := some "A", projectOwner := some "bob",
    aiDescription := some "desc", languages := [("js", 10)] }

/-- The ineligible source record of the end-to-end scenario: its
description is the empty string. -/
def recB : Project :=
  { projectName := some "B", projectOwner := some "x",
    aiDescription := some "", languages := [] }

/-- An inference call that always answers with the pooled vector `[1]`. -/
def okCall : String → Except String HFResponse :=
  fun _ => Except.ok (HFResponse.flat [JSNum.val 1])

/-- An inference call that always rejects. -/
def failCall : String → Except String HFResponse :=
  fun _ => Except.error "model call failed"

/-- An inference call answering with a vector whose only component is
Infinity. -/
def infCall : String → Except String HFResponse :=
  fun _ => Except.ok (HFResponse.flat [JSNum.posInf])

/-- An inference call answering with a vector whose only component is
NaN. -/
def nanCall : String → Except String HFResponse :=
  fun _ => Except.ok (HFResponse.flat [JSNum.nan])

/-- A Pinecone upsert that accepts. -/
def upsertOk : List PineconeVector → Except String Unit :=
  fun _ => Except.ok ()

/-- An index query oracle that answers with no matches. -/
def indexEmpty : QueryRequest → Except String (List QueryMatch) :=
  fun _ => Except.ok []

/-- The vector record built for `recA` at enumeration index 0 under
`okCall`. -/
def vecA : PineconeVector :=
  { id := "0", values := [JSNum.val 1],
    metadata :=
      { projectName := "A", description := "desc",
        languages := "\x7b\"js\":10\x7d", owner := "bob" } }

/-- The vector record built for `recA` at enumeration index 0 under
`infCall`: its only component is Infinity. -/
def vecInfA : PineconeVector :=
  { id := "0", values := [JSNum.posInf],
    metadata :=
      { projectName := "A", description := "desc",
        languages := "\x7b\"js\":10\x7d", owner := "bob" } }

/-- A nested (token-level) response of two rows of the reference dimension
384. -/
def nestedTwoRows : HFResponse :=
  HFResponse.nested
    [List.replicate 384 (JSNum.val 0), List.replicate 384 (JSNum.val 0)]

/-! The claims. -/

/-- C2, counterexample: on a nested response of two 384-element rows,
`getEmbedding` succeeds with the 768-element concatenation — it neither
fails nor returns a vector of the configured dimension 384, refuting
"either returns a vector of the configured fixed dimension (384) or
fails". -/
theorem C2_counterexample :
    getEmbedding nestedTwoRows =
      Except.ok (List.replicate 768 (JSNum.val 0)) ∧
    (List.replicate 768 (JSNum.val 0)).length = 768 ∧ (768 : Nat) ≠ 384 := by
  refine ⟨?_, List.length_replicate 768 _, by norm_num⟩
  have h768 : (768 : Nat) = 384 + 384 := by norm_num
  rw [h768, List.replicate_add]
  simp only [nestedTwoRows, getEmbedding, List.flatten_cons,
    List.flatten_nil, List.append_nil]

/-- C2 (amended): for every model response, `getEmbedding` either fails
with the embedding-format error — exactly when the response is not a
sequence — or returns a flat vector: a flat response is passed through
unchanged, and a nested sequence is flattened into one flat sequence (the
concatenation of its rows, so its length is the sum of the row lengths)
rather than averaged; no fixed dimension is enforced anywhere. -/
theorem C2_embedding_normalization (r : HFResponse) :
    (∀ x, r = HFResponse.scalar x →
      getEmbedding r = Except.error "Invalid embedding response format") ∧
    (∀ xs, r = HFResponse.flat xs → getEmbedding r = Except.ok xs) ∧
    (∀ xss, r = HFResponse.nested xss →
      getEmbedding r = Except.ok xss.flatten ∧
      xss.flatten.length = (xss.map List.length).sum) := by
  refine ⟨fun x hx => by rw [hx]; rfl, fun xs hxs => by rw [hxs]; rfl,
    fun xss hxss => ⟨?_, by simp⟩⟩
  rw [hxss]
  cases xss with
  | nil => rfl
  | cons xs rest => rfl

/-- C1: if the embedding call for any eligible record fails, or any
computed vector is judged invalid by the handler, the whole indexing run
fails with a single run-level 500 error and `index.upsert` is never
called: zero records are written, the index state is unchanged
(all-or-nothing). -/
theorem C1_all_or_nothing (hfCall : String → Except String HFResponse)
    (upsert : List PineconeVector → Except String Unit)
    (l : List Project) (p : Project)
    (hp : p ∈ l.filter hasDescription)
    (hfail :
      (∃ e, embedText hfCall (p.aiDescription.getD "") = Except.error e) ∨
      (∃ v, embedText hfCall (p.aiDescription.getD "") = Except.ok v ∧
        v.any JSNum.isNaN = true)) :
    ∃ e, GETrun true (Except.ok l) hfCall upsert =
      (ApiResponse.jsonError ("Failed to process data: " ++ e) 500, none) :=
  GETrun_error_of_bad_record hfCall upsert hp hfail

/-- C1, witness: with the single eligible record `recA` and an embedding
call that rejects, the indexing run is one 500 error and no upsert call is
made. -/
theorem C1_witness :
    ∃ e, GETrun true (Except.ok [recA]) failCall upsertOk =
      (ApiResponse.jsonError ("Failed to process data: " ++ e) 500, none) :=
  C1_all_or_nothing failCall upsertOk [recA] recA (by decide)
    (Or.inl ⟨"model call failed", rfl⟩)

/-- C3, counterexample: a computed vector whose only component is Infinity
— non-finite — is NOT judged invalid (`isNaN(Infinity)` is false), so the
run succeeds and upserts it instead of aborting, refuting "a vector
containing any non-numeric or non-finite component (e.g. NaN or Infinity)
invalidates the whole vector and aborts the indexing run". -/
theorem C3_counterexample :
    GETrun true (Except.ok [recA]) infCall upsertOk =
      (ApiResponse.success "Data successfully sent to Pinecone." 1,
        some [vecInfA]) ∧
    vecInfA.values = [JSNum.posInf] ∧
    JSNum.isNaN JSNum.posInf = false := by
  refine ⟨?_, rfl, rfl⟩
  decide

/-- C3 (amended): during indexing, any NaN component invalidates the whole
vector and aborts the entire run with one 500 error and no upsert
(fail-fast, not skip); the validation is `embedding.some(isNaN)`, which no
infinity satisfies, so a non-finite Infinity component is not detected —
only NaN components abort. -/
theorem C3_nan_aborts (hfCall : String → Except String HFResponse)
    (upsert : List PineconeVector → Except String Unit)
    (l : List Project) (p : Project)
    (hp : p ∈ l.filter hasDescription)
    (hnan : ∃ v, embedText hfCall (p.aiDescription.getD "") = Except.ok v ∧
      v.any JSNum.isNaN = true) :
    ∃ e, GETrun true (Except.ok l) hfCall upsert =
      (ApiResponse.jsonError ("Failed to process data: " ++ e) 500, none) :=
  GETrun_error_of_bad_record hfCall upsert hp (Or.inr hnan)

/-- C3, witness: with the single eligible record `recA` and an embedding
call answering `[NaN]`, the indexing run is one 500 error with no
upsert. -/
theorem C3_witness :
    ∃ e, GETrun true (Except.ok [recA]) nanCall upsertOk =
      (ApiResponse.jsonError ("Failed to process data: " ++ e) 500, none) :=
  C3_nan_aborts nanCall upsertOk [recA] recA (by decide)
    ⟨[JSNum.nan], rfl, rfl⟩

/-- C5: the indexing filter excludes exactly the records whose description
is absent, empty or whitespace-only — silently, by filtering, not as an
error — and includes every other record exactly once, preserving the fetch
order: the filtered list is a sublist of the fetch result, each record
occurs in it exactly as often as in the fetch result when eligible and
never when not, and ineligibility is precisely "the description is absent
or all-whitespace" (the empty string being the vacuous all-whitespace
case). -/
theorem C5_filter_exact (l : List Project) :
    (l.filter hasDescription).Sublist l ∧
    (∀ p : Project, (l.filter hasDescription).count p =
      if hasDescription p then l.count p else 0) ∧
    (∀ p : Project, hasDescription p = false ↔
      (p.aiDescription = none ∨ ∃ d, p.aiDescription = some d ∧
        ∀ c ∈ d.toList, jsWhitespaceChar c = true)) := by
  refine ⟨List.filter_sublist l, fun p => ?_, fun p => ?_⟩
  · by_cases hp : hasDescription p
    · rw [if_pos hp, List.count_filter hp]
    · rw [if_neg hp, List.count_eq_zero]
      intro hmem
      exact hp (List.of_mem_filter hmem)
  · cases hd : p.aiDescription with
    | none => simp [hasDescription, hd]
    | some d =>
      constructor
      · intro h
        refine Or.inr ⟨d, rfl, ?_⟩
        have h2 : ¬d = "" → jsTrim d = "" := by
          simpa [hasDescription, hd, Bool.and_eq_false_iff] using h
        by_cases hde : d = ""
        · subst hde; intro c hc; cases hc
        · exact (jsTrim_eq_empty_iff d).mp (h2 hde)
      · intro h
        rcases h with hnone | ⟨d2, hd2, hall⟩
        · exact absurd hnone (by simp)
        · injection hd2 with hdd
          subst hdd
          have hte : jsTrim d = "" := (jsTrim_eq_empty_iff d).mpr hall
          simp [hasDescription, hd, hte]

/-- C6: each vector record built by the indexing pipeline has `id` the
positional enumeration index rendered as a string, `projectName` and
`owner` metadata falling back to "Unnamed Project" and "Unknown Owner"
when absent, and `languages` metadata the JSON serialization of the
record language mapping; and on the scenario records `[recA, recB]`
(`recB` has an empty description) the run produces exactly the one record
`vecA` — id "0", projectName "A", owner "bob" — and skips `recB`. -/
theorem C6_vector_records (hfCall : String → Except String HFResponse)
    (i : Nat) (p : Project) (v : PineconeVector)
    (h : processProject hfCall i p = Except.ok v) :
    (v.id = toString i ∧
     v.metadata.projectName = jsOrDefault p.projectName "Unnamed Project" ∧
     (p.projectName = none → v.metadata.projectName = "Unnamed Project") ∧
     v.metadata.owner = jsOrDefault p.projectOwner "Unknown Owner" ∧
     (p.projectOwner = none → v.metadata.owner = "Unknown Owner") ∧
     v.metadata.languages = jsonStringifyLanguages p.languages) ∧
    GETrun true (Except.ok [recA, recB]) okCall upsertOk =
      (ApiResponse.success "Data successfully sent to Pinecone." 1,
        some [vecA]) := by
  refine ⟨?_, by decide⟩
  unfold processProject at h
  cases he : embedText hfCall (p.aiDescription.getD "") with
  | error e => rw [he] at h; cases h
  | ok embedding =>
    rw [he] at h
    dsimp only at h
    by_cases hnan : embedding.any JSNum.isNaN
    · rw [if_pos hnan] at h; cases h
    · rw [if_neg hnan] at h
      cases h
      refine ⟨rfl, rfl, fun hn => ?_, rfl, fun ho => ?_, rfl⟩
      · simp [hn, jsOrDefault]
      · simp [ho, jsOrDefault]

/-- C6, witness: `processProject` succeeds on `recA` at index 0 with
`vecA`, whose id is "0". -/
theorem C6_witness :
    (processProject okCall 0 recA = Except.ok vecA) ∧ vecA.id = toString 0 :=
  ⟨rfl, ((C6_vector_records okCall 0 recA vecA rfl).1).1⟩

/-- Every response of the indexing handler is the fixed success message or
a `getCatch` payload: no third shape exists. -/
theorem GETrun_response_cases (apiKeySet : Bool)
    (dbResult : Except String (List Project))
    (hfCall : String → Except String HFResponse)
    (upsert : List PineconeVector → Except String Unit) :
    (∃ n, (GETrun apiKeySet dbResult hfCall upsert).1 =
      ApiResponse.success "Data successfully sent to Pinecone." n) ∨
    (∃ m, (GETrun apiKeySet dbResult hfCall upsert).1 = getCatch m) := by
  unfold GETrun
  cases apiKeySet with
  | false => exact Or.inr ⟨_, rfl⟩
  | true =>
    cases dbResult with
    | error e => exact Or.inr ⟨e, rfl⟩
    | ok l =>
      cases hpa : promiseAll ((l.filter hasDescription).enum.map
          fun ip => processProject hfCall ip.1 ip.2) with
      | error e => exact Or.inr ⟨e, by simp [GETrun, hpa]⟩
      | ok vectors =>
        by_cases hl : vectors.length > 0
        · cases hu : upsert vectors with
          | error e2 => exact Or.inr ⟨e2, by simp [GETrun, hpa, hl, hu]⟩
          | ok u =>
            exact Or.inl ⟨vectors.length, by simp [GETrun, hpa, hl, hu]⟩
        · exact Or.inl ⟨vectors.length, by simp [GETrun, hpa, hl]⟩

/-- C10: every failure of the indexing handler — missing API-key
configuration, database read failure, embedding failure, invalid-vector
detection, or upsert rejection — is returned with status 500 and an error
message starting with "Failed to process data: "; the handler never
produces any other error status and never distinguishes configuration
errors from backend errors in the status code. -/
theorem C10_indexing_errors (apiKeySet : Bool)
    (dbResult : Except String (List Project))
    (hfCall : String → Except String HFResponse)
    (upsert : List PineconeVector → Except String Unit)
    (e : String) (s : Nat)
    (h : (GETrun apiKeySet dbResult hfCall upsert).1 =
      ApiResponse.jsonError e s) :
    s = 500 ∧ ∃ m, e = "Failed to process data: " ++ m := by
  rcases GETrun_response_cases apiKeySet dbResult hfCall upsert with
    ⟨n, hn⟩ | ⟨m, hm⟩
  · rw [hn] at h; cases h
  · rw [hm] at h
    unfold getCatch at h
    rcases h with ⟨he, hs⟩
    exact ⟨rfl, m, rfl⟩

/-- C10, witness: with the API key missing, the run answers 500 with the
prefixed configuration message. -/
theorem C10_witness :
    (500 : Nat) = 500 ∧
    ∃ m, "Failed to process data: PINECONE_API_KEY environment variable is not set." =
      "Failed to process data: " ++ m :=
  C10_indexing_errors false (Except.ok []) okCall upsertOk _ _ rfl

/-- C4: when the incoming message list has no `user`-role message, or the
last user-authored message has non-string content, the `POST` handler
answers the fixed `InvalidRequest` payload with status 400, makes no
embedding call and sends no query to the vector index. -/
theorem C4_invalid_request (apiKeySet : Bool)
    (hfCall : String → Except String HFResponse)
    (index : QueryRequest → Except String (List QueryMatch))
    (messages : List CoreMessage)
    (h : (∀ m ∈ messages, m.role ≠ Role.user) ∨
      (∃ m, lastUserMessage messages = some m ∧
        ∀ s, m.content ≠ MsgContent.text s)) :
    POSTrun apiKeySet hfCall index messages =
      { response := PostResponse.jsonError "Invalid user message in request." 400,
        embedCalls := [], queryReqs := [] } := by
  rcases h with h | ⟨m, hm, hc⟩
  · have hnone : lastUserMessage messages = none := by
      unfold lastUserMessage
      rw [List.filter_eq_nil_iff.mpr fun a ha => by simpa using h a ha]
      rfl
    unfold POSTrun
    rw [hnone]
  · unfold POSTrun
    rw [hm]
    cases hcont : m.content with
    | parts => simp [hcont]
    | text s => exact absurd hcont (hc s)

/-- C4, witness: a conversation holding only an assistant message is
rejected with 400 and no external call. -/
theorem C4_witness :
    POSTrun true okCall indexEmpty
        [{ role := Role.assistant, content := MsgContent.text "hello" }] =
      { response := PostResponse.jsonError "Invalid user message in request." 400,
        embedCalls := [], queryReqs := [] } :=
  C4_invalid_request true okCall indexEmpty _ (Or.inl (by decide))

/-- `toFixed4` always renders a sign-and-integer part, then a dot, then a
fractional part of exactly four characters. -/
theorem toFixed4_shape (q : ℚ) :
    ∃ intPart fracPart, toFixed4 q = intPart ++ "." ++ fracPart ∧
      fracPart.length = 4 :=
  ⟨(if q < 0 then "-" else "") ++
      toString ((Rat.floor (|q| * 10000 + 1 / 2)).toNat / 10000),
    frac4 ((Rat.floor (|q| * 10000 + 1 / 2)).toNat % 10000), rfl, rfl⟩

/-- C7: the rendered context block is one fixed-format paragraph per match
— `Project`, `Owner`, `Description` and `Relevance Score` lines, each
numeric score displayed with exactly four decimal places — joined by the
separator line, and the zero-match block is the empty string (not an
error). -/
theorem C7_context_block (ql : List QueryMatch)
    (h : ∀ m ∈ ql, ∃ q : ℚ, m.score = some (JSNum.val q)) :
    buildContext ql = String.intercalate "\n---\n" (ql.map renderMatch) ∧
    buildContext [] = "" ∧
    ∀ m ∈ ql, ∃ pn ow ds intPart fracPart,
      renderMatch m = "Project: " ++ pn ++ "\nOwner: " ++ ow ++
        "\nDescription: " ++ ds ++ "\nRelevance Score: " ++
        (intPart ++ "." ++ fracPart) ++ "\n" ∧
      fracPart.length = 4 := by
  refine ⟨rfl, rfl, fun m hm => ?_⟩
  rcases h m hm with ⟨q, hq⟩
  rcases toFixed4_shape q with ⟨ip, fp, hif, hlen⟩
  refine ⟨(m.metadata.getD undefinedMetadata).projectName,
    (m.metadata.getD undefinedMetadata).owner,
    (m.metadata.getD undefinedMetadata).description, ip, fp, ?_, hlen⟩
  simp only [renderMatch, hq, renderScore, hif]

/-- The single retrieved match used by the C7 witness. -/
def matchHalf : QueryMatch :=
  { score := some (JSNum.val (1 / 2)), metadata := some vecA.metadata }

/-- C7, witness: a single retrieved match with metadata and score 1/2
renders as the fixed-format block. -/
theorem C7_witness :
    buildContext [matchHalf] =
      String.intercalate "\n---\n" ([matchHalf].map renderMatch) :=
  (C7_context_block [matchHalf] fun m hm => ⟨1 / 2, by
    rcases List.mem_singleton.mp hm with rfl; rfl⟩).1

/-- C9: every query the retrieval handler sends to the vector index asks
for exactly the top 3 matches with metadata inclusion enabled and carries
the embedded query vector; against the spec-modelled index, the retrieved
match list therefore has size at most 3 and every returned match carries
metadata. -/
theorem C9_topk_query (apiKeySet : Bool)
    (hfCall : String → Except String HFResponse)
    (store : List StoredVector) (score : StoredVector → ℚ)
    (messages : List CoreMessage) (req : QueryRequest)
    (h : (POSTrun apiKeySet hfCall
        (fun r => Except.ok (indexQueryModel store score r))
        messages).queryReqs = [req]) :
    req.topK = 3 ∧ req.includeMetadata = true ∧
    (∃ text, embedText hfCall text = Except.ok req.vector) ∧
    (indexQueryModel store score req).length ≤ 3 ∧
    ∀ m ∈ indexQueryModel store score req, m.metadata.isSome = true := by
  have hreq : req.topK = 3 ∧ req.includeMetadata = true ∧
      ∃ text, embedText hfCall text = Except.ok req.vector := by
    cases hlu : lastUserMessage messages with
    | none => simp [POSTrun, hlu] at h
    | some latest =>
      cases hcont : latest.content with
      | parts => simp [POSTrun, hlu, hcont] at h
      | text s =>
        cases hemb : embedText hfCall s with
        | error e => simp [POSTrun, hlu, hcont, hemb] at h
        | ok vec =>
          cases apiKeySet with
          | false => simp [POSTrun, hlu, hcont, hemb] at h
          | true =>
            have hr : (⟨vec, 3, true⟩ : QueryRequest) = req := by
              simpa [POSTrun, hlu, hcont, hemb] using h
            subst hr
            exact ⟨rfl, rfl, s, hemb⟩
  obtain ⟨h3, hmeta, hembed⟩ := hreq
  refine ⟨h3, hmeta, hembed, ?_, ?_⟩
  · have hle : (indexQueryModel store score req).length ≤ req.topK := by
      unfold indexQueryModel
      rw [List.length_take]
      exact min_le_left _ _
    rw [h3] at hle
    exact hle
  · intro m hmem
    unfold indexQueryModel at hmem
    rw [if_pos hmeta] at hmem
    have hmem2 := (List.take_sublist _ _).subset hmem
    rcases List.mem_map.mp hmem2 with ⟨r, hr, hrm⟩
    have hrs := (List.mem_filter.mp hr).2
    rw [← hrm]
    exact hrs

/-- A similarity oracle scoring every stored record 0. -/
def scoreZero : StoredVector → ℚ := fun _ => 0

/-- The one-user-message conversation used by witnesses. -/
def userHi : List CoreMessage :=
  [{ role := Role.user, content := MsgContent.text "hi" }]

/-- C9, witness: the run on `userHi` queries with topK 3 and metadata
inclusion, and the spec-modelled index answers at most 3 matches, all
carrying metadata. -/
theorem C9_witness :
    (⟨[JSNum.val 1], 3, true⟩ : QueryRequest).topK = 3 ∧
    (⟨[JSNum.val 1], 3, true⟩ : QueryRequest).includeMetadata = true ∧
    (∃ text, embedText okCall text =
      Except.ok (⟨[JSNum.val 1], 3, true⟩ : QueryRequest).vector) ∧
    (indexQueryModel [] scoreZero ⟨[JSNum.val 1], 3, true⟩).length ≤ 3 ∧
    ∀ m ∈ indexQueryModel [] scoreZero ⟨[JSNum.val 1], 3, true⟩,
      m.metadata.isSome = true :=
  C9_topk_query true okCall [] scoreZero userHi ⟨[JSNum.val 1], 3, true⟩ rfl

set_option maxRecDepth 10000 in
/-- C8: for every rendered context block, the empty one included, the
system instruction embeds the context verbatim between the two fixed
template halves, and the closing half contains verbatim the fixed refusal
sentence together with the constraints to answer only from the provided
context, use no outside knowledge, and not fabricate details. -/
theorem C8_grounding_instruction (c : String) :
    systemPrompt c = sysPromptPre ++ c ++ sysPromptPost ∧
    (∃ a b, sysPromptPost =
      a ++ "I don't have enough information to answer that." ++ b) ∧
    (∃ a b, sysPromptPost =
      a ++ "ONLY use the information from the CONTEXT section to answer the query." ++ b) ∧
    (∃ a b, sysPromptPost =
      a ++ "Do NOT use any prior knowledge or information outside of the provided context." ++ b) ∧
    (∃ a b, sysPromptPost =
      a ++ "Do NOT make up or infer details not explicitly stated." ++ b) :=
  ⟨rfl,
   ⟨"\n---\n\nIMPORTANT INSTRUCTIONS:\n1.  ONLY use the information from the CONTEXT section to answer the query.\n2.  If the context does not contain the answer, you MUST state: \"",
    "\"\n3.  Do NOT use any prior knowledge or information outside of the provided context.\n4.  Do NOT make up or infer details not explicitly stated.\n5.  When returning a project's details, format it clearly.\n",
    by decide⟩,
   ⟨"\n---\n\nIMPORTANT INSTRUCTIONS:\n1.  ",
    "\n2.  If the context does not contain the answer, you MUST state: \"I don't have enough information to answer that.\"\n3.  Do NOT use any prior knowledge or information outside of the provided context.\n4.  Do NOT make up or infer details not explicitly stated.\n5.  When returning a project's details, format it clearly.\n",
    by decide⟩,
   ⟨"\n---\n\nIMPORTANT INSTRUCTIONS:\n1.  ONLY use the information from the CONTEXT section to answer the query.\n2.  If the context does not contain the answer, you MUST state: \"I don't have enough information to answer that.\"\n3.  ",
    "\n4.  Do NOT make up or infer details not explicitly stated.\n5.  When returning a project's details, format it clearly.\n",
    by decide⟩,
   ⟨"\n---\n\nIMPORTANT INSTRUCTIONS:\n1.  ONLY use the information from the CONTEXT section to answer the query.\n2.  If the context does not contain the answer, you MUST state: \"I don't have enough information to answer that.\"\n3.  Do NOT use any prior knowledge or information outside of the provided context.\n4.  ",
    "\n5.  When returning a project's details, format it clearly.\n",
    by decide⟩⟩
